import Mathlib

/-!
Verification development for the EDDN live-market import plugin
(`tradedangerous/plugins/eddn_plug.py`).

Strings are modelled as lists of Unicode code points (`PyStr`), matching
Python `str` semantics for the ASCII text the plugin manipulates
(`lower()`, `strip()`, `re.sub` over ASCII whitespace/hyphen/punctuation
classes).  The catalog store (sqlite) is modelled as explicit row lists;
the snapshot transaction is modelled with explicit statement-level fault
injection so that rollback behaviour can be stated.
-/

/-- A Python string as a list of code points. -/
abbrev PyStr := List Nat

/-- Embed a Lean string literal as a `PyStr` (used only to build
concrete test inputs). -/
def pystr (s : String) : PyStr := s.data.map Char.toNat

/-- ASCII whitespace class (Python `\s` / `str.strip()` on ASCII input):
space, tab, newline, carriage return, vertical tab, form feed. -/
def isWsCh (n : Nat) : Bool :=
  n == 32 || n == 9 || n == 10 || n == 13 || n == 11 || n == 12

/-- Character class of `re.sub(r"[\s\-]+", "_", s)`: whitespace or hyphen. -/
def isWsHyp (n : Nat) : Bool := isWsCh n || n == 45

/-- Character class of `re.sub(r"[\.\'\(\)\[\],]", "", s)`:
period, apostrophe, parentheses, square brackets, comma. -/
def isPunctCh (n : Nat) : Bool :=
  n == 46 || n == 39 || n == 40 || n == 41 || n == 91 || n == 93 || n == 44

/-- `str.lower()` on an ASCII code point. -/
def pyLower (n : Nat) : Nat := if 65 ≤ n ∧ n ≤ 90 then n + 32 else n

/-- `str.strip()`: drop leading and trailing whitespace. -/
def stripWs (l : PyStr) : PyStr :=
  ((l.dropWhile isWsCh).reverse.dropWhile isWsCh).reverse

/-- `s.replace('&', 'and')` (code points 97 110 100 = "and"). -/
def ampRepl : PyStr → PyStr
  | [] => []
  | c :: rest =>
    if c == 38 then 97 :: 110 :: 100 :: ampRepl rest else c :: ampRepl rest

/-- `re.sub(p+, "_", s)`: replace each maximal run of characters
satisfying `p` by a single underscore (code point 95).  The Boolean flag
records whether we are currently inside a run. -/
def squashRuns (p : Nat → Bool) : Bool → PyStr → PyStr
  | _, [] => []
  | inRun, c :: rest =>
    if p c then
      (if inRun then squashRuns p true rest else 95 :: squashRuns p true rest)
    else
      c :: squashRuns p false rest

/-- `ImportPlugin._norm_symbol` (eddn_plug.py lines 310-319):
strip, lower, `&`→`and`, runs of whitespace/hyphen → `_`, strip
punctuation, collapse runs of `_`. -/
def normSymbol (l : PyStr) : PyStr :=
  squashRuns (fun c => c == 95) false
    ((squashRuns isWsHyp false
        (ampRepl ((stripWs l).map pyLower))).filter (fun c => !(isPunctCh c)))

/-! ## Catalog store model -/

/-- A row of the `System` table (columns used by the plugin). -/
structure SystemRow where
  system_id : Int
  name : PyStr
deriving DecidableEq

/-- A row of the `Station` table (columns used by the plugin). -/
structure StationRow where
  station_id : Int
  system_id : Int
  name : PyStr
  carrier_docking_access : Option PyStr
deriving DecidableEq

/-- A row of the `StationItem` table as written by the plugin.
`modified` stores the unix timestamp passed to `datetime(?, 'unixepoch')`. -/
structure StationItemRow where
  station_id : Int
  item_id : Int
  modified : Int
  from_live : Int
  demand_price : Int
  demand_units : Int
  demand_level : Int
  supply_price : Int
  supply_units : Int
  supply_level : Int
deriving DecidableEq

/-- The catalog store (sqlite database) as visible to `_handle_commodity`. -/
structure CatalogDB where
  systems : List SystemRow
  stations : List StationRow
  stationItems : List StationItemRow
deriving DecidableEq

/-- Case-insensitive form of a name (`COLLATE NOCASE` on ASCII). -/
def lowerStr (s : PyStr) : PyStr := s.map pyLower

/-- `SELECT system_id FROM System WHERE name = ? COLLATE NOCASE` +
`fetchone` (first matching row). -/
def findSystem (db : CatalogDB) (name : PyStr) : Option Int :=
  (db.systems.find? (fun r => lowerStr r.name == lowerStr name)).map (·.system_id)

/-- `SELECT station_id FROM Station WHERE system_id = ? AND name = ?
COLLATE NOCASE` + `fetchone`. -/
def findStation (db : CatalogDB) (sysId : Int) (name : PyStr) : Option Int :=
  (db.stations.find?
      (fun r => r.system_id == sysId && lowerStr r.name == lowerStr name)).map
    (·.station_id)

/-- `UPDATE Station SET carrier_docking_access = ? WHERE station_id = ?`. -/
def updateDocking (db : CatalogDB) (sid : Int) (d : PyStr) : CatalogDB :=
  { db with
    stations := db.stations.map (fun r =>
      if r.station_id == sid then { r with carrier_docking_access := some d } else r) }

/-- Rows of the `StationItem` table belonging to one station. -/
def stationRows (db : CatalogDB) (sid : Int) : List StationItemRow :=
  db.stationItems.filter (fun r => r.station_id == sid)

/-! ## Message model -/

/-- One entry of the message's `commodities` list.  `none` models an
absent JSON field; numeric JSON values are modelled as integers. -/
structure Commodity where
  name : Option PyStr
  sellPrice : Option Int
  demand : Option Int
  demandBracket : Option Int
  buyPrice : Option Int
  stock : Option Int
  stockBracket : Option Int
deriving DecidableEq

/-- A decoded commodity/3 message as read by `_handle_commodity`.
`timestamp` is the parsed unix time of the `timestamp` field
(`_to_unix`); `none` models a missing/empty timestamp string (the
handler's emptiness check inspects the raw string before parsing).
The unused `marketId` field is omitted. -/
structure Msg where
  systemName : PyStr
  stationName : PyStr
  stationType : PyStr
  docking : Option PyStr
  timestamp : Option Int
  commodities : List Commodity
deriving DecidableEq

/-- Plugin options relevant to `_handle_commodity`. -/
structure EddnConfig where
  carrier_only : Bool
  public_only : Bool
deriving DecidableEq

/-- The run counters touched by `_handle_commodity`
(`self._stats`; the per-frame counters live in `_consume_loop`). -/
structure RunStats where
  stations_matched : Nat
  stations_skipped : Nat
  items_written : Nat
  items_skipped : Nat
  carriers_filtered : Nat
deriving DecidableEq

/-- Pipeline state owned by the running plugin: the catalog store
connection, `_last_station_mod`, `_item_symbol_map`, the stats, and a
count of `WARN` log lines emitted. -/
structure PState where
  db : CatalogDB
  lastMod : List (Int × Int)
  symMap : List (PyStr × Int)
  stats : RunStats
  warnings : Nat
deriving DecidableEq

/-- `self._last_station_mod.get(station_id)` (raw dict lookup). -/
def lmFind (m : List (Int × Int)) (k : Int) : Option Int :=
  (m.find? (fun p => p.1 == k)).map (·.2)

/-- `self._last_station_mod.get(station_id, 0)`. -/
def lmGet (m : List (Int × Int)) (k : Int) : Int := (lmFind m k).getD 0

/-- `self._last_station_mod[station_id] = ts_unix`. -/
def lmSet (m : List (Int × Int)) (k v : Int) : List (Int × Int) :=
  (k, v) :: m.filter (fun p => !(p.1 == k))

/-- The station-level dedupe test (lines 241-244):
`last_mod = self._last_station_mod.get(station_id, 0)` followed by
`if last_mod and ts_unix <= last_mod` — a recorded value of 0 is falsy
and therefore behaves like an absent entry. -/
def dedupRejects (m : List (Int × Int)) (sid ts : Int) : Bool :=
  !(lmGet m sid == 0) && decide (ts ≤ lmGet m sid)

/-- Python truthiness of the `carrierDockingAccess` value
(`if docking:`): present and non-empty. -/
def dockingTruthy (d : Option PyStr) : Bool :=
  match d with
  | none => false
  | some s => !(s == [])

/-- Filter check (1), lines 195-197:
`if self.carrier_only and station_type != 'FleetCarrier'`. -/
def filteredCarrier (cfg : EddnConfig) (msg : Msg) : Bool :=
  cfg.carrier_only && !(stripWs msg.stationType == pystr "FleetCarrier")

/-- Filter check (2), lines 198-200:
`if self.public_only and docking and str(docking).lower() != 'all'`. -/
def filteredPublic (cfg : EddnConfig) (msg : Msg) : Bool :=
  cfg.public_only && dockingTruthy msg.docking
    && !(lowerStr (msg.docking.getD []) == pystr "all")

/-- Filter check (3), lines 202-203:
`if not (system_name and station_name and ts and commodities)`. -/
def incompleteMsg (msg : Msg) : Bool :=
  stripWs msg.systemName == [] || stripWs msg.stationName == []
    || msg.timestamp.isNone || msg.commodities == []

/-! ## Snapshot transaction -/

/-- Symbol lookup used per commodity (lines 260-261):
`item_id = self._item_symbol_map.get(self._norm_symbol(sym))` followed
by the truthiness test `if not item_id` — a mapped id of 0 is falsy and
is treated as a miss. -/
def resolveItem (m : List (PyStr × Int)) (sym : PyStr) : Option Int :=
  match (m.find? (fun p => p.1 == normSymbol sym)).map (·.2) with
  | none => none
  | some i => if i == 0 then none else some i

/-- Python `x or 0` on an optional integer field (`int(c.get(k) or 0)`). -/
def intOr0 (v : Option Int) : Int := match v with | none => 0 | some k => k

/-- Python `int((c.get(k) or -1) or -1)` for the bracket fields: an
absent value or a falsy value (0) becomes -1. -/
def bracketVal (v : Option Int) : Int :=
  match v with
  | none => -1
  | some k => if k == 0 then -1 else k

/-- The `StationItem` row built for one resolved commodity
(lines 265-280). -/
def mkRow (sid iid ts : Int) (c : Commodity) : StationItemRow :=
  { station_id := sid
    item_id := iid
    modified := ts
    from_live := 1
    demand_price := intOr0 c.sellPrice
    demand_units := intOr0 c.demand
    demand_level := bracketVal c.demandBracket
    supply_price := intOr0 c.buyPrice
    supply_units := intOr0 c.stock
    supply_level := bracketVal c.stockBracket }

/-- `INSERT OR REPLACE` into `StationItem` keyed on
`(station_id, item_id)`: any conflicting row is removed and the new row
appended. -/
def insertReplace (rows : List StationItemRow) (r : StationItemRow) :
    List StationItemRow :=
  rows.filter (fun x => !(x.station_id == r.station_id && x.item_id == r.item_id))
    ++ [r]

/-- The per-commodity loop of the transaction (lines 256-280), with
statement-level fault injection: `idx` numbers the SQL statements
executed inside the transaction (BEGIN = 0, DELETE = 1, each INSERT
next), and a fault equal to the index of a statement makes that
statement raise `sqlite3.Error`.  On success returns the table rows,
the `written` count, the `items_skipped` increments made, and the next
statement index; on a fault returns the `items_skipped` increments made
before the failing statement (stats live outside the database and are
not rolled back). -/
def runInserts (symMap : List (PyStr × Int)) (sid ts : Int) (fault : Option Nat) :
    List Commodity → Nat → List StationItemRow → Nat → Nat →
    Except Nat (List StationItemRow × Nat × Nat × Nat)
  | [], idx, acc, written, skipped => .ok (acc, written, skipped, idx)
  | c :: rest, idx, acc, written, skipped =>
    match c.name with
    | none => runInserts symMap sid ts fault rest idx acc written skipped
    | some sym =>
      if sym == [] then runInserts symMap sid ts fault rest idx acc written skipped
      else
        match resolveItem symMap sym with
        | none => runInserts symMap sid ts fault rest idx acc written (skipped + 1)
        | some iid =>
          if fault == some idx then .error skipped
          else
            runInserts symMap sid ts fault rest (idx + 1)
              (insertReplace acc (mkRow sid iid ts c)) (written + 1) skipped

/-- The primary snapshot transaction (lines 246-281):
`BEGIN` (statement 0), `DELETE FROM StationItem WHERE station_id = ?`
(statement 1), one `INSERT OR REPLACE` per resolved commodity, then
`COMMIT` (the next statement index).  A fault at any of these statements
raises, the `except` handler issues `ROLLBACK`, and the database is left
exactly as it was before `BEGIN`.  Returns
(database, written, items_skipped increments, success). -/
def runTransaction (db : CatalogDB) (symMap : List (PyStr × Int)) (sid ts : Int)
    (cs : List Commodity) (fault : Option Nat) : CatalogDB × Nat × Nat × Bool :=
  if fault == some 0 then (db, 0, 0, false)
  else if fault == some 1 then (db, 0, 0, false)
  else
    match runInserts symMap sid ts fault cs 2
        (db.stationItems.filter (fun r => !(r.station_id == sid))) 0 0 with
    | .error skipped => (db, 0, skipped, false)
    | .ok (rows, written, skipped, idx) =>
      if fault == some idx then (db, 0, skipped, false)
      else ({ db with stationItems := rows }, written, skipped, true)

/-- How `_handle_commodity` disposed of a message (derived from which
return path / branch was taken; carries the resolved station id where
one exists). -/
inductive Outcome where
  | carrierFiltered
  | incomplete
  | unknownSystem
  | unknownStation
  | stale (sid : Int)
  | committed (sid : Int) (written skipped : Nat)
  | dbError (sid : Int) (skipped : Nat)
deriving DecidableEq

/-- `ImportPlugin._handle_commodity` (lines 185-291) over one decoded
commodity/3 message, with statement-level fault injection for the
primary transaction.  Parse-failure fallback of `_to_unix` to the wall
clock is outside the model (`timestamp` carries the parsed value). -/
def handleCommodity (cfg : EddnConfig) (st : PState) (msg : Msg)
    (fault : Option Nat) : PState × Outcome :=
  if filteredCarrier cfg msg then
    ({ st with stats :=
        { st.stats with carriers_filtered := st.stats.carriers_filtered + 1 } },
      .carrierFiltered)
  else if filteredPublic cfg msg then
    ({ st with stats :=
        { st.stats with carriers_filtered := st.stats.carriers_filtered + 1 } },
      .carrierFiltered)
  else if incompleteMsg msg then (st, .incomplete)
  else
    match findSystem st.db (stripWs msg.systemName) with
    | none =>
      ({ st with stats :=
          { st.stats with stations_skipped := st.stats.stations_skipped + 1 } },
        .unknownSystem)
    | some sysId =>
      match findStation st.db sysId (stripWs msg.stationName) with
      | none =>
        ({ st with stats :=
            { st.stats with stations_skipped := st.stats.stations_skipped + 1 } },
          .unknownStation)
      | some sid =>
        let db1 :=
          if dockingTruthy msg.docking then
            updateDocking st.db sid (msg.docking.getD [])
          else st.db
        match msg.timestamp with
        | none => (st, .incomplete)
        | some tsUnix =>
          if dedupRejects st.lastMod sid tsUnix then
            ({ st with db := db1 }, .stale sid)
          else
            match runTransaction db1 st.symMap sid tsUnix msg.commodities fault with
            | (db2, written, skippedDelta, true) =>
              if written ≠ 0 then
                ({ st with
                    db := db2
                    lastMod := lmSet st.lastMod sid tsUnix
                    stats :=
                      { st.stats with
                          stations_matched := st.stats.stations_matched + 1
                          items_written := st.stats.items_written + written
                          items_skipped := st.stats.items_skipped + skippedDelta } },
                  .committed sid written skippedDelta)
              else
                ({ st with
                    db := db2
                    stats :=
                      { st.stats with
                          items_skipped := st.stats.items_skipped + skippedDelta } },
                  .committed sid 0 skippedDelta)
            | (db2, _, skippedDelta, false) =>
              ({ st with
                  db := db2
                  stats :=
                    { st.stats with
                        items_skipped := st.stats.items_skipped + skippedDelta }
                  warnings := st.warnings + 1 },
                .dbError sid skippedDelta)

/-! ## Concrete fixtures (used by witnesses and counterexamples) -/

/-- Zeroed run counters. -/
def stats0 : RunStats :=
  { stations_matched := 0, stations_skipped := 0, items_written := 0
    items_skipped := 0, carriers_filtered := 0 }

/-- A catalog with one system (id 1), one station (id 10, docking "all"),
and no snapshot rows. -/
def dbW : CatalogDB :=
  { systems := [{ system_id := 1, name := pystr "Sol" }]
    stations := [{ station_id := 10, system_id := 1
                   name := pystr "Abraham Lincoln"
                   carrier_docking_access := some (pystr "all") }]
    stationItems := [] }

/-- Symbol map holding the single item "Gold" with id 5. -/
def symMapW : List (PyStr × Int) := [(normSymbol (pystr "Gold"), 5)]

/-- Default options: no carrier filtering. -/
def cfgW : EddnConfig := { carrier_only := false, public_only := false }

/-- Initial pipeline state for the concrete runs. -/
def st0 : PState :=
  { db := dbW, lastMod := [], symMap := symMapW, stats := stats0, warnings := 0 }

/-- A commodity observation for "Gold". -/
def cGold1 : Commodity :=
  { name := some (pystr "Gold"), sellPrice := some 100, demand := some 5
    demandBracket := some 2, buyPrice := some 90, stock := some 7
    stockBracket := some 3 }

/-- A second "Gold" observation with different prices and a present
bracket value of 0. -/
def cGold0 : Commodity :=
  { name := some (pystr "Gold"), sellPrice := some 200, demand := some 9
    demandBracket := some 0, buyPrice := some 180, stock := some 4
    stockBracket := some 0 }

/-- An observation whose symbol is not in the symbol map. -/
def cUnknown : Commodity :=
  { name := some (pystr "Unobtainium"), sellPrice := some 10, demand := some 1
    demandBracket := some 1, buyPrice := some 9, stock := some 1
    stockBracket := some 1 }

/-- Builds a message for the fixture station. -/
def mkMsgW (ts : Int) (docking : Option PyStr) (cs : List Commodity) : Msg :=
  { systemName := pystr "Sol", stationName := pystr "Abraham Lincoln"
    stationType := pystr "Coriolis", docking := docking
    timestamp := some ts, commodities := cs }

/-! ## Normalization lemmas (symbol normalization, C9) -/

theorem pyLower_stable {n : Nat} (h : ¬(65 ≤ n ∧ n ≤ 90)) : pyLower n = n := by
  simp [pyLower, h]

theorem pyLower_not_upper (n : Nat) : ¬(65 ≤ pyLower n ∧ pyLower n ≤ 90) := by
  unfold pyLower
  split
  · omega
  · omega

theorem mem_map_pyLower {c : Nat} {l : PyStr} (h : c ∈ l.map pyLower) :
    ¬(65 ≤ c ∧ c ≤ 90) := by
  rcases List.mem_map.mp h with ⟨a, _, rfl⟩
  exact pyLower_not_upper a

theorem mem_ampRepl {c : Nat} {l : PyStr} (h : c ∈ ampRepl l) :
    c = 97 ∨ c = 110 ∨ c = 100 ∨ (c ∈ l ∧ c ≠ 38) := by
  induction l with
  | nil => simp [ampRepl] at h
  | cons a rest ih =>
    rw [ampRepl] at h
    split at h
    · simp only [List.mem_cons] at h
      rcases h with h | h | h | h
      · exact Or.inl h
      · exact Or.inr (Or.inl h)
      · exact Or.inr (Or.inr (Or.inl h))
      · rcases ih h with h' | h' | h' | ⟨hm, hne⟩
        · exact Or.inl h'
        · exact Or.inr (Or.inl h')
        · exact Or.inr (Or.inr (Or.inl h'))
        · exact Or.inr (Or.inr (Or.inr ⟨List.mem_cons_of_mem a hm, hne⟩))
    · next ha =>
      simp only [List.mem_cons] at h
      rcases h with rfl | h
      · refine Or.inr (Or.inr (Or.inr ⟨List.mem_cons_self c rest, ?_⟩))
        intro hc
        subst hc
        simp at ha
      · rcases ih h with h' | h' | h' | ⟨hm, hne⟩
        · exact Or.inl h'
        · exact Or.inr (Or.inl h')
        · exact Or.inr (Or.inr (Or.inl h'))
        · exact Or.inr (Or.inr (Or.inr ⟨List.mem_cons_of_mem a hm, hne⟩))

theorem mem_squashRuns {p : Nat → Bool} {c : Nat} :
    ∀ {b : Bool} {l : PyStr}, c ∈ squashRuns p b l → c = 95 ∨ (c ∈ l ∧ p c = false) := by
  intro b l
  induction l generalizing b with
  | nil => intro h; simp [squashRuns] at h
  | cons a rest ih =>
    intro h
    by_cases hpa : p a
    · cases b with
      | true =>
        simp only [squashRuns, hpa, if_pos] at h
        rcases ih h with h' | ⟨hm, hp⟩
        · exact Or.inl h'
        · exact Or.inr ⟨List.mem_cons_of_mem a hm, hp⟩
      | false =>
        simp only [squashRuns, hpa, if_pos] at h
        rcases List.mem_cons.mp h with rfl | h'
        · exact Or.inl rfl
        · rcases ih h' with h'' | ⟨hm, hp⟩
          · exact Or.inl h''
          · exact Or.inr ⟨List.mem_cons_of_mem a hm, hp⟩
    · simp only [squashRuns, hpa, Bool.false_eq_true, if_neg] at h
      rcases List.mem_cons.mp h with rfl | h'
      · exact Or.inr ⟨List.mem_cons_self c rest, Bool.not_eq_true _ ▸ hpa⟩
      · rcases ih h' with h'' | ⟨hm, hp⟩
        · exact Or.inl h''
        · exact Or.inr ⟨List.mem_cons_of_mem a hm, hp⟩

theorem mem_stripWs {c : Nat} {l : PyStr} (h : c ∈ stripWs l) : c ∈ l := by
  unfold stripWs at h
  rw [List.mem_reverse] at h
  have h1 := (List.dropWhile_sublist (l := (l.dropWhile isWsCh).reverse) isWsCh).mem h
  rw [List.mem_reverse] at h1
  exact (List.dropWhile_sublist isWsCh).mem h1

theorem map_pyLower_id {l : PyStr} (h : ∀ c ∈ l, ¬(65 ≤ c ∧ c ≤ 90)) :
    l.map pyLower = l := by
  induction l with
  | nil => rfl
  | cons a rest ih =>
    simp only [List.map_cons, List.cons.injEq]
    constructor
    · exact pyLower_stable (h a (List.mem_cons_self a rest))
    · exact ih (fun c hc => h c (List.mem_cons_of_mem a hc))

theorem ampRepl_id {l : PyStr} (h : ∀ c ∈ l, c ≠ 38) : ampRepl l = l := by
  induction l with
  | nil => rfl
  | cons a rest ih =>
    rw [ampRepl]
    have ha : ¬(a == 38) = true := by
      simp only [beq_iff_eq]
      exact h a (List.mem_cons_self a rest)
    rw [if_neg ha]
    exact congrArg (a :: ·) (ih (fun c hc => h c (List.mem_cons_of_mem a hc)))

theorem squashRuns_id_no_p {p : Nat → Bool} {l : PyStr}
    (h : ∀ c ∈ l, p c = false) : ∀ b, squashRuns p b l = l := by
  induction l with
  | nil => intro b; rfl
  | cons a rest ih =>
    intro b
    rw [squashRuns]
    have ha : ¬(p a = true) := by
      rw [h a (List.mem_cons_self a rest)]
      simp
    rw [if_neg ha]
    exact congrArg (a :: ·) (ih (fun c hc => h c (List.mem_cons_of_mem a hc)) false)

theorem dropWhile_id_of {p : Nat → Bool} {l : PyStr}
    (h : ∀ c ∈ l, p c = false) : l.dropWhile p = l := by
  cases l with
  | nil => rfl
  | cons a rest =>
    rw [List.dropWhile_cons]
    rw [h a (List.mem_cons_self a rest)]
    simp

theorem stripWs_id {l : PyStr} (h : ∀ c ∈ l, isWsCh c = false) : stripWs l = l := by
  unfold stripWs
  rw [dropWhile_id_of h]
  rw [dropWhile_id_of (fun c hc => h c (List.mem_reverse.mp hc))]
  exact List.reverse_reverse l

/-- `l` contains no two adjacent characters both satisfying `p`. -/
def noRun (p : Nat → Bool) : List Nat → Bool
  | [] => true
  | [_] => true
  | a :: b :: rest => !(p a && p b) && noRun p (b :: rest)

theorem squashRuns_true_head {p : Nat → Bool} :
    ∀ (l : PyStr) (c : Nat), (squashRuns p true l).head? = some c → p c = false := by
  intro l
  induction l with
  | nil => intro c hc; simp [squashRuns] at hc
  | cons a rest ih =>
    intro c hc
    rw [squashRuns] at hc
    by_cases hpa : p a = true
    · rw [if_pos hpa] at hc
      rw [if_pos rfl] at hc
      exact ih c hc
    · rw [if_neg hpa] at hc
      simp only [List.head?_cons, Option.some.injEq] at hc
      subst hc
      exact Bool.not_eq_true _ ▸ hpa

theorem noRun_cons_of {p : Nat → Bool} {x : Nat} {l : PyStr}
    (h1 : noRun p l = true)
    (h2 : ∀ y, l.head? = some y → (p x && p y) = false) :
    noRun p (x :: l) = true := by
  cases l with
  | nil => rfl
  | cons y t =>
    rw [noRun]
    rw [h2 y rfl, h1]
    rfl

theorem noRun_squashRuns {p : Nat → Bool} :
    ∀ (l : PyStr) (b : Bool), noRun p (squashRuns p b l) = true := by
  intro l
  induction l with
  | nil => intro b; rfl
  | cons a rest ih =>
    intro b
    rw [squashRuns]
    by_cases hpa : p a = true
    · rw [if_pos hpa]
      cases b with
      | true => rw [if_pos rfl]; exact ih true
      | false =>
        rw [if_neg (by simp)]
        refine noRun_cons_of (ih true) ?_
        intro y hy
        rw [squashRuns_true_head rest y hy]
        simp
    · rw [if_neg hpa]
      refine noRun_cons_of (ih false) ?_
      intro y hy
      have hpaf : p a = false := by cases hb : p a <;> simp_all
      rw [hpaf]
      simp

theorem squashRuns_id_noRun {p : Nat → Bool} (hp : ∀ c, p c = true → c = 95) :
    ∀ l : PyStr, noRun p l = true → squashRuns p false l = l := by
  intro l
  induction l with
  | nil => intro _; rfl
  | cons a rest ih =>
    intro h
    rw [squashRuns]
    by_cases hpa : p a = true
    · rw [if_pos hpa]
      rw [if_neg (by simp)]
      cases rest with
      | nil => rw [hp a hpa]; rfl
      | cons b t =>
        rw [noRun] at h
        have hab := (Bool.and_eq_true _ _).mp h
        have hpb : p b = false := by
          rcases (by simpa using hab.1 : p a = false ∨ p b = false) with h' | h'
          · exact absurd hpa (by simp [h'])
          · exact h'
        have htail : squashRuns p true (b :: t) = squashRuns p false (b :: t) := by
          rw [squashRuns, squashRuns]
          rw [if_neg (by simp [hpb]), if_neg (by simp [hpb])]
        rw [htail, ih hab.2, hp a hpa]
    · rw [if_neg hpa]
      have htail : noRun p rest = true := by
        cases rest with
        | nil => rfl
        | cons b t => exact ((Bool.and_eq_true _ _).mp (noRun.eq_3 p a b t ▸ h)).2
      exact congrArg (a :: ·) (ih htail)

/-- Characters that can appear in the output of `normSymbol`: no
whitespace, no hyphen, no ampersand, no stripped punctuation, no
uppercase ASCII letter. -/
def goodCh (c : Nat) : Prop :=
  isWsCh c = false ∧ isWsHyp c = false ∧ c ≠ 38 ∧ isPunctCh c = false
    ∧ ¬(65 ≤ c ∧ c ≤ 90)

theorem normSymbol_good {l : PyStr} : ∀ c ∈ normSymbol l, goodCh c := by
  intro c hc
  unfold normSymbol at hc
  rcases mem_squashRuns hc with rfl | ⟨hc1, _⟩
  · exact ⟨by decide, by decide, by decide, by decide, by decide⟩
  · rw [List.mem_filter] at hc1
    obtain ⟨hc2, hpunct⟩ := hc1
    have hpunct' : isPunctCh c = false := by simpa using hpunct
    rcases mem_squashRuns hc2 with rfl | ⟨hc3, hwh⟩
    · exact ⟨by decide, by decide, by decide, hpunct', by decide⟩
    · have hws : isWsCh c = false := by
        have := hwh
        unfold isWsHyp at this
        rcases Bool.or_eq_false_iff.mp this with ⟨h1, _⟩
        exact h1
      rcases mem_ampRepl hc3 with rfl | rfl | rfl | ⟨hc4, hamp⟩
      · exact ⟨by decide, by decide, by decide, hpunct', by decide⟩
      · exact ⟨by decide, by decide, by decide, hpunct', by decide⟩
      · exact ⟨by decide, by decide, by decide, hpunct', by decide⟩
      · exact ⟨hws, hwh, hamp, hpunct', mem_map_pyLower hc4⟩

theorem normSymbol_idem (l : PyStr) : normSymbol (normSymbol l) = normSymbol l := by
  have hg := normSymbol_good (l := l)
  conv_lhs => rw [normSymbol]
  rw [stripWs_id (fun c hc => (hg c hc).1)]
  rw [map_pyLower_id (fun c hc => (hg c hc).2.2.2.2)]
  rw [ampRepl_id (fun c hc => (hg c hc).2.2.1)]
  rw [squashRuns_id_no_p (fun c hc => (hg c hc).2.1) false]
  rw [List.filter_eq_self.mpr (fun c hc => by simp [(hg c hc).2.2.2.1])]
  refine squashRuns_id_noRun (fun c h => by simpa using h) _ ?_
  rw [normSymbol]
  exact noRun_squashRuns _ false

/-! ## Snapshot transaction lemmas -/

/-- The snapshot the per-commodity loop builds for the station, run
against an initially empty per-station table. -/
def snapAux (symMap : List (PyStr × Int)) (sid ts : Int) :
    List Commodity → List StationItemRow → List StationItemRow
  | [], acc => acc
  | c :: rest, acc =>
    match c.name with
    | none => snapAux symMap sid ts rest acc
    | some sym =>
      if sym == [] then snapAux symMap sid ts rest acc
      else
        match resolveItem symMap sym with
        | none => snapAux symMap sid ts rest acc
        | some iid =>
          snapAux symMap sid ts rest (insertReplace acc (mkRow sid iid ts c))

/-- The rows a successful commit stores for the station: exactly the
resolved commodities of the message (later duplicates replacing earlier
ones). -/
def snapRows (symMap : List (PyStr × Int)) (sid ts : Int)
    (cs : List Commodity) : List StationItemRow :=
  snapAux symMap sid ts cs []

theorem filter_insertReplace {sid : Int} {acc : List StationItemRow}
    {r : StationItemRow} (h : r.station_id = sid) :
    (insertReplace acc r).filter (fun x => x.station_id == sid)
      = insertReplace (acc.filter (fun x => x.station_id == sid)) r := by
  unfold insertReplace
  rw [List.filter_append]
  have hr : (fun x : StationItemRow => x.station_id == sid) r = true := by
    simp [h]
  rw [List.filter_filter, List.filter_filter]
  rw [List.filter_congr (fun a _ => Bool.and_comm _ _)]
  simp [hr]

theorem runInserts_ok_filter {symMap : List (PyStr × Int)} {sid ts : Int}
    {fault : Option Nat} :
    ∀ (cs : List Commodity) (idx : Nat) (acc : List StationItemRow) (w s : Nat)
      (rows : List StationItemRow) (w' s' idx' : Nat),
      runInserts symMap sid ts fault cs idx acc w s = .ok (rows, w', s', idx') →
      rows.filter (fun x => x.station_id == sid)
        = snapAux symMap sid ts cs (acc.filter (fun x => x.station_id == sid)) := by
  intro cs
  induction cs with
  | nil =>
    intro idx acc w s rows w' s' idx' h
    rw [runInserts] at h
    cases h
    rfl
  | cons c rest ih =>
    intro idx acc w s rows w' s' idx' h
    rw [runInserts] at h
    rw [snapAux]
    split at h
    · exact ih _ _ _ _ _ _ _ _ h
    · split at h
      · rename_i hcond
        rw [if_pos hcond]
        exact ih _ _ _ _ _ _ _ _ h
      · rename_i hcond
        rw [if_neg hcond]
        split at h
        · exact ih _ _ _ _ _ _ _ _ h
        · split at h
          · exact absurd h (by simp)
          · rw [ih _ _ _ _ _ _ _ _ h]
            exact congrArg (snapAux symMap sid ts rest) (filter_insertReplace rfl)

theorem runInserts_written_mono {symMap : List (PyStr × Int)} {sid ts : Int}
    {fault : Option Nat} :
    ∀ (cs : List Commodity) (idx : Nat) (acc : List StationItemRow) (w s : Nat)
      (rows : List StationItemRow) (w' s' idx' : Nat),
      runInserts symMap sid ts fault cs idx acc w s = .ok (rows, w', s', idx') →
      w ≤ w' := by
  intro cs
  induction cs with
  | nil =>
    intro idx acc w s rows w' s' idx' h
    rw [runInserts] at h
    cases h
    exact Nat.le_refl _
  | cons c rest ih =>
    intro idx acc w s rows w' s' idx' h
    rw [runInserts] at h
    split at h
    · exact ih _ _ _ _ _ _ _ _ h
    · split at h
      · exact ih _ _ _ _ _ _ _ _ h
      · split at h
        · exact ih _ _ _ _ _ _ _ _ h
        · split at h
          · exact absurd h (by simp)
          · exact Nat.le_of_succ_le (ih _ _ _ _ _ _ _ _ h)

theorem runInserts_written_eq {symMap : List (PyStr × Int)} {sid ts : Int}
    {fault : Option Nat} :
    ∀ (cs : List Commodity) (idx : Nat) (acc : List StationItemRow) (w s : Nat)
      (rows : List StationItemRow) (s' idx' : Nat),
      runInserts symMap sid ts fault cs idx acc w s = .ok (rows, w, s', idx') →
      rows = acc := by
  intro cs
  induction cs with
  | nil =>
    intro idx acc w s rows s' idx' h
    rw [runInserts] at h
    cases h
    rfl
  | cons c rest ih =>
    intro idx acc w s rows s' idx' h
    rw [runInserts] at h
    split at h
    · exact ih _ _ _ _ _ _ _ h
    · split at h
      · exact ih _ _ _ _ _ _ _ h
      · split at h
        · exact ih _ _ _ _ _ _ _ h
        · split at h
          · exact absurd h (by simp)
          · exact absurd (runInserts_written_mono _ _ _ _ _ _ _ _ _ h) (by omega)

theorem base_filter_nil {db : CatalogDB} {sid : Int} :
    (db.stationItems.filter (fun r => !(r.station_id == sid))).filter
      (fun r => r.station_id == sid) = [] := by
  rw [List.filter_filter]
  simp

theorem runTransaction_true_filter {db : CatalogDB} {symMap : List (PyStr × Int)}
    {sid ts : Int} {cs : List Commodity} {fault : Option Nat}
    {db2 : CatalogDB} {w s : Nat}
    (h : runTransaction db symMap sid ts cs fault = (db2, w, s, true)) :
    stationRows db2 sid = snapRows symMap sid ts cs := by
  unfold runTransaction at h
  split at h
  · exact absurd h (by simp)
  · split at h
    · exact absurd h (by simp)
    · split at h
      · exact absurd h (by simp)
      · rename_i rows written skipped idx heq
        split at h
        · exact absurd h (by simp)
        · simp only [Prod.mk.injEq] at h
          obtain ⟨h1, h2, h3, -⟩ := h
          subst h1 h2 h3
          unfold stationRows
          simp only []
          rw [runInserts_ok_filter _ _ _ _ _ _ _ _ _ heq]
          rw [base_filter_nil]
          rfl

theorem runTransaction_true_zero_rows {db : CatalogDB} {symMap : List (PyStr × Int)}
    {sid ts : Int} {cs : List Commodity} {fault : Option Nat}
    {db2 : CatalogDB} {s : Nat}
    (h : runTransaction db symMap sid ts cs fault = (db2, 0, s, true)) :
    stationRows db2 sid = [] := by
  unfold runTransaction at h
  split at h
  · exact absurd h (by simp)
  · split at h
    · exact absurd h (by simp)
    · split at h
      · exact absurd h (by simp)
      · rename_i rows written skipped idx heq
        split at h
        · exact absurd h (by simp)
        · simp only [Prod.mk.injEq] at h
          obtain ⟨h1, h2, h3, -⟩ := h
          subst h1 h3
          rw [← h2] at heq
          have hrows := runInserts_written_eq _ _ _ _ _ _ _ _ heq
          subst hrows
          unfold stationRows
          simp only []
          rw [base_filter_nil]

theorem runTransaction_false_db {db : CatalogDB} {symMap : List (PyStr × Int)}
    {sid ts : Int} {cs : List Commodity} {fault : Option Nat}
    {db2 : CatalogDB} {w s : Nat}
    (h : runTransaction db symMap sid ts cs fault = (db2, w, s, false)) :
    db2 = db := by
  unfold runTransaction at h
  split at h
  · exact (Prod.mk.injEq _ _ _ _ ▸ h).1.symm
  · split at h
    · exact (Prod.mk.injEq _ _ _ _ ▸ h).1.symm
    · split at h
      · simp only [Prod.mk.injEq] at h
        exact h.1.symm
      · split at h
        · simp only [Prod.mk.injEq] at h
          exact h.1.symm
        · exact absurd h (by simp)

/-! ## Handler inversion lemmas -/

theorem updateDocking_items {db : CatalogDB} {sid : Int} {d : PyStr} :
    (updateDocking db sid d).stationItems = db.stationItems := rfl

theorem handle_committed_inv {cfg : EddnConfig} {st : PState} {msg : Msg}
    {fault : Option Nat} {st' : PState} {sid : Int} {w sk : Nat}
    (h : handleCommodity cfg st msg fault = (st', .committed sid w sk)) :
    ∃ t db1 db2, msg.timestamp = some t ∧
      runTransaction db1 st.symMap sid t msg.commodities fault = (db2, w, sk, true) ∧
      st'.db = db2 ∧
      (w ≠ 0 → st'.lastMod = lmSet st.lastMod sid t ∧
        st'.stats.stations_matched = st.stats.stations_matched + 1 ∧
        st'.stats.items_written = st.stats.items_written + w ∧
        st'.stats.items_skipped = st.stats.items_skipped + sk) ∧
      (w = 0 → st'.lastMod = st.lastMod ∧
        st'.stats.stations_matched = st.stats.stations_matched ∧
        st'.stats.items_written = st.stats.items_written ∧
        st'.stats.items_skipped = st.stats.items_skipped + sk) := by
  simp only [handleCommodity] at h
  split at h
  · exact absurd h (by simp)
  · split at h
    · exact absurd h (by simp)
    · split at h
      · exact absurd h (by simp)
      · split at h
        · exact absurd h (by simp)
        · split at h
          · exact absurd h (by simp)
          · split at h
            · exact absurd h (by simp)
            · rename_i sysId hsys sid0 hstn t hts
              split at h
              · exact absurd h (by simp)
              · split at h
                · rename_i db2 written skd heq
                  split at h
                  · rename_i hw
                    simp only [Prod.mk.injEq, Outcome.committed.injEq] at h
                    obtain ⟨hstate, hsid, hwq, hskq⟩ := h
                    subst hsid hwq hskq
                    subst hstate
                    refine ⟨t, _, db2, hts, heq, rfl, ?_, ?_⟩
                    · intro _
                      exact ⟨rfl, rfl, rfl, rfl⟩
                    · intro h0
                      exact absurd h0 hw
                  · rename_i hw
                    have hw0 : written = 0 := not_not.mp hw
                    simp only [Prod.mk.injEq, Outcome.committed.injEq] at h
                    obtain ⟨hstate, hsid, hwq, hskq⟩ := h
                    subst hsid hskq
                    subst hstate
                    subst hwq
                    rw [hw0] at heq
                    refine ⟨t, _, db2, hts, heq, rfl, ?_, ?_⟩
                    · intro h0
                      exact absurd rfl h0
                    · intro _
                      exact ⟨rfl, rfl, rfl, rfl⟩
                · exact absurd h (by simp)

theorem handle_stale_inv {cfg : EddnConfig} {st : PState} {msg : Msg}
    {fault : Option Nat} {st' : PState} {sid : Int}
    (h : handleCommodity cfg st msg fault = (st', .stale sid)) :
    ∃ t, msg.timestamp = some t ∧ dedupRejects st.lastMod sid t = true ∧
      st' = { st with db :=
        if dockingTruthy msg.docking then updateDocking st.db sid (msg.docking.getD [])
        else st.db } := by
  simp only [handleCommodity] at h
  split at h
  · exact absurd h (by simp)
  · split at h
    · exact absurd h (by simp)
    · split at h
      · exact absurd h (by simp)
      · split at h
        · exact absurd h (by simp)
        · split at h
          · exact absurd h (by simp)
          · split at h
            · exact absurd h (by simp)
            · rename_i sysId hsys sid0 hstn t hts
              split at h
              · rename_i hded
                simp only [Prod.mk.injEq, Outcome.stale.injEq] at h
                obtain ⟨hstate, hsid⟩ := h
                subst hsid
                subst hstate
                exact ⟨t, hts, hded, rfl⟩
              · split at h
                · split at h
                  · exact absurd h (by simp)
                  · exact absurd h (by simp)
                · exact absurd h (by simp)

theorem handle_dbError_inv {cfg : EddnConfig} {st : PState} {msg : Msg}
    {fault : Option Nat} {st' : PState} {sid : Int} {sk : Nat}
    (h : handleCommodity cfg st msg fault = (st', .dbError sid sk)) :
    st'.db.stationItems = st.db.stationItems ∧
    st'.lastMod = st.lastMod ∧
    st'.warnings = st.warnings + 1 ∧
    st'.stats.stations_matched = st.stats.stations_matched ∧
    st'.stats.items_written = st.stats.items_written ∧
    st'.stats.stations_skipped = st.stats.stations_skipped ∧
    st'.stats.carriers_filtered = st.stats.carriers_filtered ∧
    st'.stats.items_skipped = st.stats.items_skipped + sk := by
  simp only [handleCommodity] at h
  split at h
  · exact absurd h (by simp)
  · split at h
    · exact absurd h (by simp)
    · split at h
      · exact absurd h (by simp)
      · split at h
        · exact absurd h (by simp)
        · split at h
          · exact absurd h (by simp)
          · split at h
            · exact absurd h (by simp)
            · rename_i sysId hsys sid0 hstn t hts
              split at h
              · exact absurd h (by simp)
              · split at h
                · split at h
                  · exact absurd h (by simp)
                  · exact absurd h (by simp)
                · rename_i db2 n skd heq
                  have hdb := runTransaction_false_db heq
                  simp only [Prod.mk.injEq, Outcome.dbError.injEq] at h
                  obtain ⟨hstate, hsid, hsk⟩ := h
                  subst hsid hsk
                  subst hstate
                  subst hdb
                  refine ⟨?_, rfl, rfl, rfl, rfl, rfl, rfl, rfl⟩
                  split
                  · exact updateDocking_items
                  · rfl

theorem handle_stale_eval {cfg : EddnConfig} {st : PState} {msg : Msg}
    {fault : Option Nat} {sysId sid t : Int}
    (h1 : filteredCarrier cfg msg = false) (h2 : filteredPublic cfg msg = false)
    (h3 : incompleteMsg msg = false)
    (h4 : findSystem st.db (stripWs msg.systemName) = some sysId)
    (h5 : findStation st.db sysId (stripWs msg.stationName) = some sid)
    (h6 : msg.timestamp = some t)
    (h7 : dedupRejects st.lastMod sid t = true) :
    handleCommodity cfg st msg fault =
      ({ st with db :=
          if dockingTruthy msg.docking then updateDocking st.db sid (msg.docking.getD [])
          else st.db }, .stale sid) := by
  simp only [handleCommodity, h4, h5, h6]
  rw [if_neg (by simp [h1]), if_neg (by simp [h2]), if_neg (by simp [h3]), if_pos h7]

/-- Shared: on any committed outcome, the station's stored rows equal
the snapshot built from the message's resolved commodities. -/
theorem handle_committed_rows {cfg : EddnConfig} {st : PState} {msg : Msg}
    {fault : Option Nat} {st' : PState} {sid : Int} {w sk : Nat} {t : Int}
    (h : handleCommodity cfg st msg fault = (st', .committed sid w sk))
    (ht : msg.timestamp = some t) :
    stationRows st'.db sid = snapRows st.symMap sid t msg.commodities := by
  obtain ⟨t', db1, db2, ht', htx, hdb, -, -⟩ := handle_committed_inv h
  rw [ht] at ht'
  obtain rfl := Option.some.inj ht'
  rw [hdb]
  exact runTransaction_true_filter htx

/-- State after accepting a snapshot for station 10 at unix time 0
(timestamp exactly the epoch). -/
def stEpoch : PState := (handleCommodity cfgW st0 (mkMsgW 0 none [cGold1]) none).1

/-- State after accepting a snapshot for station 10 at unix time 100. -/
def stT100 : PState := (handleCommodity cfgW st0 (mkMsgW 100 none [cGold1]) none).1

/-- Options with `carrier_only` set. -/
def cfgCa : EddnConfig := { carrier_only := true, public_only := false }

/-- Options with `public_only` set. -/
def cfgPub : EddnConfig := { carrier_only := false, public_only := true }

/-! ## Claim theorems -/

/-- C9: the symbol normalization function is idempotent for every input
string — `normSymbol (normSymbol x) = normSymbol x` — and in particular
maps "Agri-Medicines" to "agri_medicines", "Non-Lethal Weapons" to
"non_lethal_weapons", and "Hydrogen Fuel" to "hydrogen_fuel". -/
theorem c9_norm_symbol_idempotent :
    (∀ l : PyStr, normSymbol (normSymbol l) = normSymbol l) ∧
    normSymbol (pystr "Agri-Medicines") = pystr "agri_medicines" ∧
    normSymbol (pystr "Non-Lethal Weapons") = pystr "non_lethal_weapons" ∧
    normSymbol (pystr "Hydrogen Fuel") = pystr "hydrogen_fuel" :=
  ⟨normSymbol_idem, by decide, by decide, by decide⟩

/-- C1: after a commodity message commits for station `sid`, the rows
stored for `sid` are exactly the snapshot built from that message's
resolved commodities — nothing from any previous snapshot remains; and
after two messages with timestamps T1 < T2 commit in order, the rows
equal exactly the second message's resolved snapshot. -/
theorem c1_snapshot_exact_replace :
    (∀ (cfg : EddnConfig) (st : PState) (msg : Msg) (fault : Option Nat)
       (st' : PState) (sid : Int) (w sk : Nat) (t : Int),
       handleCommodity cfg st msg fault = (st', .committed sid w sk) →
       msg.timestamp = some t →
       stationRows st'.db sid = snapRows st.symMap sid t msg.commodities) ∧
    (∀ (cfg : EddnConfig) (st st1 st2 : PState) (msg1 msg2 : Msg)
       (sid : Int) (w1 sk1 w2 sk2 : Nat) (t1 t2 : Int),
       msg1.timestamp = some t1 → msg2.timestamp = some t2 → t1 < t2 →
       handleCommodity cfg st msg1 none = (st1, .committed sid w1 sk1) →
       handleCommodity cfg st1 msg2 none = (st2, .committed sid w2 sk2) →
       stationRows st2.db sid = snapRows st1.symMap sid t2 msg2.commodities) := by
  constructor
  · intro cfg st msg fault st' sid w sk t h ht
    exact handle_committed_rows h ht
  · intro cfg st st1 st2 msg1 msg2 sid w1 sk1 w2 sk2 t1 t2 ht1 ht2 hlt h1 h2
    exact handle_committed_rows h2 ht2

/-- Witness for C1: the two-message fixture run commits both messages
and the final rows equal the second message's snapshot. -/
theorem c1_snapshot_exact_replace_witness :
    stationRows ((handleCommodity cfgW stT100 (mkMsgW 200 none [cGold0]) none).1).db 10
      = snapRows stT100.symMap 10 200 [cGold0] :=
  c1_snapshot_exact_replace.2 cfgW st0 stT100
    ((handleCommodity cfgW stT100 (mkMsgW 200 none [cGold0]) none).1)
    (mkMsgW 100 none [cGold1]) (mkMsgW 200 none [cGold0]) 10 1 0 1 0 100 200
    rfl rfl (by decide) (by decide) (by decide)

/-- C7: on a storage error anywhere in the primary transaction the
transaction is rolled back in full — the station-item table is exactly
as before, a warning is logged, the dedupe clock is not advanced, and
the matched/written counters are untouched; the handler returns
normally (no exception). -/
theorem c7_rollback_preserves_snapshot :
    ∀ (cfg : EddnConfig) (st : PState) (msg : Msg) (fault : Option Nat)
      (st' : PState) (sid : Int) (sk : Nat),
      handleCommodity cfg st msg fault = (st', .dbError sid sk) →
      st'.db.stationItems = st.db.stationItems ∧
      st'.warnings = st.warnings + 1 ∧
      st'.lastMod = st.lastMod ∧
      st'.stats.stations_matched = st.stats.stations_matched ∧
      st'.stats.items_written = st.stats.items_written := by
  intro cfg st msg fault st' sid sk h
  obtain ⟨hitems, hlm, hwarn, hm, hw, -, -, -⟩ := handle_dbError_inv h
  exact ⟨hitems, hwarn, hlm, hm, hw⟩

/-- Witness for C7: a fault at the BEGIN statement rolls back; the
fixture station's rows survive untouched. -/
theorem c7_rollback_preserves_snapshot_witness :
    ((handleCommodity cfgW stT100 (mkMsgW 200 none [cGold0]) (some 0)).1).db.stationItems
        = stT100.db.stationItems ∧
    ((handleCommodity cfgW stT100 (mkMsgW 200 none [cGold0]) (some 0)).1).warnings
        = stT100.warnings + 1 ∧
    ((handleCommodity cfgW stT100 (mkMsgW 200 none [cGold0]) (some 0)).1).lastMod
        = stT100.lastMod ∧
    ((handleCommodity cfgW stT100 (mkMsgW 200 none [cGold0]) (some 0)).1).stats.stations_matched
        = stT100.stats.stations_matched ∧
    ((handleCommodity cfgW stT100 (mkMsgW 200 none [cGold0]) (some 0)).1).stats.items_written
        = stT100.stats.items_written :=
  c7_rollback_preserves_snapshot cfgW stT100 (mkMsgW 200 none [cGold0]) (some 0)
    ((handleCommodity cfgW stT100 (mkMsgW 200 none [cGold0]) (some 0)).1) 10 0 (by decide)

/-- C10: run statistics are not transactional with the store: a rolled
back message keeps the `items_skipped` increments already made (exactly
`sk`), while `stations_matched` and `items_written` are only advanced
by a successful commit that wrote at least one row. -/
theorem c10_stats_not_transactional :
    (∀ (cfg : EddnConfig) (st : PState) (msg : Msg) (fault : Option Nat)
       (st' : PState) (sid : Int) (sk : Nat),
       handleCommodity cfg st msg fault = (st', .dbError sid sk) →
       st'.stats.items_skipped = st.stats.items_skipped + sk ∧
       st'.stats.stations_matched = st.stats.stations_matched ∧
       st'.stats.items_written = st.stats.items_written) ∧
    (∀ (cfg : EddnConfig) (st : PState) (msg : Msg) (fault : Option Nat)
       (st' : PState) (sid : Int) (w sk : Nat),
       handleCommodity cfg st msg fault = (st', .committed sid w sk) → w ≠ 0 →
       st'.stats.stations_matched = st.stats.stations_matched + 1 ∧
       st'.stats.items_written = st.stats.items_written + w) ∧
    (∀ (cfg : EddnConfig) (st : PState) (msg : Msg) (fault : Option Nat)
       (st' : PState) (sid : Int) (sk : Nat),
       handleCommodity cfg st msg fault = (st', .committed sid 0 sk) →
       st'.stats.stations_matched = st.stats.stations_matched ∧
       st'.stats.items_written = st.stats.items_written) := by
  refine ⟨?_, ?_, ?_⟩
  · intro cfg st msg fault st' sid sk h
    obtain ⟨-, -, -, hm, hw, -, -, hsk⟩ := handle_dbError_inv h
    exact ⟨hsk, hm, hw⟩
  · intro cfg st msg fault st' sid w sk h hw
    obtain ⟨t, db1, db2, -, -, -, hpos, -⟩ := handle_committed_inv h
    obtain ⟨-, hm, hiw, -⟩ := hpos hw
    exact ⟨hm, hiw⟩
  · intro cfg st msg fault st' sid sk h
    obtain ⟨t, db1, db2, -, -, -, -, hz⟩ := handle_committed_inv h
    obtain ⟨-, hm, hiw, -⟩ := hz rfl
    exact ⟨hm, hiw⟩

/-- Witness for C10: a fault at the first INSERT after one unresolved
symbol keeps that skip (`items_skipped` rises by 1) while matched and
written counters stay put; the committed fixture advances them. -/
theorem c10_stats_not_transactional_witness :
    (((handleCommodity cfgW st0 (mkMsgW 100 none [cUnknown, cGold1]) (some 2)).1).stats.items_skipped
        = st0.stats.items_skipped + 1 ∧
      ((handleCommodity cfgW st0 (mkMsgW 100 none [cUnknown, cGold1]) (some 2)).1).stats.stations_matched
        = st0.stats.stations_matched ∧
      ((handleCommodity cfgW st0 (mkMsgW 100 none [cUnknown, cGold1]) (some 2)).1).stats.items_written
        = st0.stats.items_written) ∧
    (((handleCommodity cfgW st0 (mkMsgW 100 none [cGold1]) none).1).stats.stations_matched
        = st0.stats.stations_matched + 1 ∧
      ((handleCommodity cfgW st0 (mkMsgW 100 none [cGold1]) none).1).stats.items_written
        = st0.stats.items_written + 1) :=
  ⟨c10_stats_not_transactional.1 cfgW st0 (mkMsgW 100 none [cUnknown, cGold1]) (some 2)
      ((handleCommodity cfgW st0 (mkMsgW 100 none [cUnknown, cGold1]) (some 2)).1) 10 1
      (by decide),
    c10_stats_not_transactional.2.1 cfgW st0 (mkMsgW 100 none [cGold1]) none
      ((handleCommodity cfgW st0 (mkMsgW 100 none [cGold1]) none).1) 10 1 0
      (by decide) (by decide)⟩

/-- C2 counterexample: station 10 holds an accepted snapshot at
T2 = 0 (`stEpoch`), yet a further message with the same timestamp
T = 0 ≤ T2 is not dropped — it rewrites the stored rows and advances
`items_written`, because `_last_station_mod.get(sid, 0)` makes a
recorded 0 falsy. -/
theorem c2_stale_frame_counterexample :
    lmFind stEpoch.lastMod 10 = some 0 ∧
    (handleCommodity cfgW stEpoch (mkMsgW 0 none [cGold0]) none).2 = .committed 10 1 0 ∧
    ((handleCommodity cfgW stEpoch (mkMsgW 0 none [cGold0]) none).1).db.stationItems
      ≠ stEpoch.db.stationItems ∧
    ((handleCommodity cfgW stEpoch (mkMsgW 0 none [cGold0]) none).1).stats.items_written
      ≠ stEpoch.stats.items_written :=
  ⟨by decide, by decide, by decide, by decide⟩

/-- C2 (amended): provided the recorded last-accepted timestamp T2 is
nonzero, a message for the same station with T ≤ T2 that passes
filtering and resolution is dropped whole: the station-item table and
all run counters are unchanged (the outcome is stale). -/
theorem c2_stale_frame_amended :
    ∀ (cfg : EddnConfig) (st : PState) (msg : Msg) (fault : Option Nat)
      (sysId sid t t2 : Int),
      filteredCarrier cfg msg = false → filteredPublic cfg msg = false →
      incompleteMsg msg = false →
      findSystem st.db (stripWs msg.systemName) = some sysId →
      findStation st.db sysId (stripWs msg.stationName) = some sid →
      msg.timestamp = some t →
      lmGet st.lastMod sid = t2 → t2 ≠ 0 → t ≤ t2 →
      ((handleCommodity cfg st msg fault).1.db.stationItems = st.db.stationItems ∧
        (handleCommodity cfg st msg fault).1.stats = st.stats ∧
        (handleCommodity cfg st msg fault).1.lastMod = st.lastMod ∧
        (handleCommodity cfg st msg fault).2 = .stale sid) := by
  intro cfg st msg fault sysId sid t t2 h1 h2 h3 h4 h5 h6 h7 h8 h9
  have hded : dedupRejects st.lastMod sid t = true := by
    rw [dedupRejects, h7]
    simp [h8, h9]
  rw [handle_stale_eval h1 h2 h3 h4 h5 h6 hded]
  refine ⟨?_, rfl, rfl, rfl⟩
  split
  · exact updateDocking_items
  · rfl

/-- Witness for C2 (amended): a message at T = 50 against the fixture
state holding an accepted snapshot at T2 = 100 changes nothing. -/
theorem c2_stale_frame_amended_witness :
    ((handleCommodity cfgW stT100 (mkMsgW 50 none [cGold0]) none).1.db.stationItems
        = stT100.db.stationItems ∧
      (handleCommodity cfgW stT100 (mkMsgW 50 none [cGold0]) none).1.stats = stT100.stats ∧
      (handleCommodity cfgW stT100 (mkMsgW 50 none [cGold0]) none).1.lastMod = stT100.lastMod ∧
      (handleCommodity cfgW stT100 (mkMsgW 50 none [cGold0]) none).2 = .stale 10) :=
  c2_stale_frame_amended cfgW stT100 (mkMsgW 50 none [cGold0]) none 1 10 50 100
    (by decide) (by decide) (by decide) (by decide) (by decide) rfl (by decide)
    (by decide) (by decide)

/-- C3 counterexample: a snapshot accepted at unix time 0 records a
last-accepted timestamp of 0 (`lmFind` returns `some 0`), yet a second
message with T equal to that recorded timestamp is accepted and
committed — "T equal to the recorded last-accepted timestamp is always
rejected" fails. -/
theorem c3_dedup_gate_counterexample :
    lmFind stEpoch.lastMod 10 = some 0 ∧
    dedupRejects stEpoch.lastMod 10 0 = false ∧
    (handleCommodity cfgW stEpoch (mkMsgW 0 none [cGold0]) none).2 = .committed 10 1 0 :=
  ⟨by decide, by decide, by decide⟩

/-- C3 (amended): the dedup gate accepts a message for station `sid`
with timestamp `t` iff the recorded last-accepted value is 0 — which
covers both "never recorded" (dict default 0) and "recorded as exactly
0" — or `t` is strictly greater than the recorded value; in particular
a station with no entry at all is always accepted. -/
theorem c3_dedup_gate_amended :
    (∀ (m : List (Int × Int)) (sid t : Int),
      dedupRejects m sid t = false ↔ (lmGet m sid = 0 ∨ lmGet m sid < t)) ∧
    (∀ (m : List (Int × Int)) (sid t : Int), lmFind m sid = none →
      dedupRejects m sid t = false) := by
  constructor
  · intro m sid t
    rw [dedupRejects]
    by_cases h0 : lmGet m sid = 0
    · simp [h0]
    · simp [h0, not_le]
  · intro m sid t h
    have h0 : lmGet m sid = 0 := by rw [lmGet, h]; rfl
    rw [dedupRejects, h0]
    simp

/-- Witness for C3 (amended): a station with no recorded entry is
accepted even for an ancient timestamp. -/
theorem c3_dedup_gate_amended_witness :
    lmFind ([] : List (Int × Int)) 10 = none ∧
    dedupRejects ([] : List (Int × Int)) 10 (-1000000) = false :=
  ⟨rfl, c3_dedup_gate_amended.2 [] 10 (-1000000) rfl⟩

/-- C4 counterexample: a message that the dedup gate rejects as stale
(T = 50 against recorded T2 = 100) still rewrites the station's
docking-access field, because the `UPDATE Station SET
carrier_docking_access` runs before the dedupe check, not inside the
snapshot writer. -/
theorem c4_docking_counterexample :
    (handleCommodity cfgW stT100 (mkMsgW 50 (some (pystr "none")) [cGold0]) none).2
        = .stale 10 ∧
    stT100.db.stations.map (·.carrier_docking_access) = [some (pystr "all")] ∧
    ((handleCommodity cfgW stT100 (mkMsgW 50 (some (pystr "none")) [cGold0]) none).1).db.stations.map
        (·.carrier_docking_access) = [some (pystr "none")] :=
  ⟨by decide, by decide, by decide⟩

/-- C4 (amended): the docking-access update happens after station
resolution but before the dedup gate; a stale-rejected message leaves
the station's item rows and all counters unchanged, but if it carries a
truthy docking-access value it does update the station's docking-access
field; only when no docking value is present is the state fully
untouched. -/
theorem c4_docking_amended :
    ∀ (cfg : EddnConfig) (st : PState) (msg : Msg) (fault : Option Nat)
      (st' : PState) (sid : Int),
      handleCommodity cfg st msg fault = (st', .stale sid) →
      st'.db.stationItems = st.db.stationItems ∧
      st'.stats = st.stats ∧
      (dockingTruthy msg.docking = true →
        st'.db = updateDocking st.db sid (msg.docking.getD [])) ∧
      (dockingTruthy msg.docking = false → st' = st) := by
  intro cfg st msg fault st' sid h
  obtain ⟨t, ht, hded, rfl⟩ := handle_stale_inv h
  refine ⟨?_, rfl, ?_, ?_⟩
  · split
    · exact updateDocking_items
    · rfl
  · intro hd
    simp [hd]
  · intro hd
    simp [hd]

/-- Witness for C4 (amended): the stale fixture message carrying
docking "none" updates the docking field and nothing else. -/
theorem c4_docking_amended_witness :
    ((handleCommodity cfgW stT100 (mkMsgW 50 (some (pystr "none")) [cGold0]) none).1).db.stationItems
        = stT100.db.stationItems ∧
    ((handleCommodity cfgW stT100 (mkMsgW 50 (some (pystr "none")) [cGold0]) none).1).stats
        = stT100.stats ∧
    ((handleCommodity cfgW stT100 (mkMsgW 50 (some (pystr "none")) [cGold0]) none).1).db
        = updateDocking stT100.db 10 (pystr "none") :=
  ⟨(c4_docking_amended cfgW stT100 (mkMsgW 50 (some (pystr "none")) [cGold0]) none
      ((handleCommodity cfgW stT100 (mkMsgW 50 (some (pystr "none")) [cGold0]) none).1) 10
      (by decide)).1,
    (c4_docking_amended cfgW stT100 (mkMsgW 50 (some (pystr "none")) [cGold0]) none
      ((handleCommodity cfgW stT100 (mkMsgW 50 (some (pystr "none")) [cGold0]) none).1) 10
      (by decide)).2.1,
    (c4_docking_amended cfgW stT100 (mkMsgW 50 (some (pystr "none")) [cGold0]) none
      ((handleCommodity cfgW stT100 (mkMsgW 50 (some (pystr "none")) [cGold0]) none).1) 10
      (by decide)).2.2.1 (by decide)⟩

/-- C5 counterexample: station 10 holds rows (`stT100`), then a later
message whose only commodity symbol is unknown commits with zero items
written — and the previously stored rows do NOT remain: the
DELETE+COMMIT still ran and left the station with an empty snapshot. -/
theorem c5_zero_written_counterexample :
    stationRows stT100.db 10 ≠ [] ∧
    (handleCommodity cfgW stT100 (mkMsgW 200 none [cUnknown]) none).2 = .committed 10 0 1 ∧
    stationRows ((handleCommodity cfgW stT100 (mkMsgW 200 none [cUnknown]) none).1).db 10 = [] ∧
    ((handleCommodity cfgW stT100 (mkMsgW 200 none [cUnknown]) none).1).lastMod
      = stT100.lastMod :=
  ⟨by decide, by decide, by decide, by decide⟩

/-- C5 (amended): when an accepted message resolves no commodity symbol
(`written = 0`), zero rows are written and the last-accepted clock and
the matched/written counters are not advanced — but the station's
previously stored rows are deleted (the transaction's DELETE and COMMIT
run regardless), leaving an empty snapshot rather than the old one. -/
theorem c5_zero_written_amended :
    ∀ (cfg : EddnConfig) (st : PState) (msg : Msg) (fault : Option Nat)
      (st' : PState) (sid : Int) (sk : Nat),
      handleCommodity cfg st msg fault = (st', .committed sid 0 sk) →
      stationRows st'.db sid = [] ∧
      st'.lastMod = st.lastMod ∧
      st'.stats.stations_matched = st.stats.stations_matched ∧
      st'.stats.items_written = st.stats.items_written := by
  intro cfg st msg fault st' sid sk h
  obtain ⟨t, db1, db2, ht, htx, hdb, -, hz⟩ := handle_committed_inv h
  obtain ⟨hlm, hm, hw, -⟩ := hz rfl
  rw [hdb]
  exact ⟨runTransaction_true_zero_rows htx, hlm, hm, hw⟩

/-- Witness for C5 (amended). -/
theorem c5_zero_written_amended_witness :
    stationRows ((handleCommodity cfgW stT100 (mkMsgW 200 none [cUnknown]) none).1).db 10 = [] ∧
    ((handleCommodity cfgW stT100 (mkMsgW 200 none [cUnknown]) none).1).lastMod
      = stT100.lastMod ∧
    ((handleCommodity cfgW stT100 (mkMsgW 200 none [cUnknown]) none).1).stats.stations_matched
      = stT100.stats.stations_matched ∧
    ((handleCommodity cfgW stT100 (mkMsgW 200 none [cUnknown]) none).1).stats.items_written
      = stT100.stats.items_written :=
  c5_zero_written_amended cfgW stT100 (mkMsgW 200 none [cUnknown]) none
    ((handleCommodity cfgW stT100 (mkMsgW 200 none [cUnknown]) none).1) 10 1 (by decide)

/-- C6 counterexample: a present bracket value of 0 is stored as level
-1, not 0 — `int((c.get('demandBracket') or -1) or -1)` coerces the
falsy value 0 to -1. -/
theorem c6_bracket_counterexample :
    cGold0.demandBracket = some 0 ∧
    (stationRows ((handleCommodity cfgW st0 (mkMsgW 100 none [cGold0]) none).1).db 10).map
      (·.demand_level) = [-1] :=
  ⟨rfl, by decide⟩

/-- C6 (amended): for a resolved commodity observation the stored row's
fields come directly from sellPrice/demand/demandBracket and
buyPrice/stock/stockBracket (absent numeric fields read as 0), but -1
is stored as the level exactly when the bracket is absent, 0 or -1 —
in particular a present bracket value of 0 is stored as -1, not 0. -/
theorem c6_field_mapping_amended :
    (∀ b : Option Int,
      bracketVal b = -1 ↔ (b = none ∨ b = some 0 ∨ b = some (-1))) ∧
    (∀ (cfg : EddnConfig) (st : PState) (msg : Msg) (fault : Option Nat)
       (st' : PState) (sid : Int) (w sk : Nat) (t : Int) (c : Commodity)
       (nm : PyStr) (iid : Int),
       handleCommodity cfg st msg fault = (st', .committed sid w sk) →
       msg.timestamp = some t →
       msg.commodities = [c] → c.name = some nm → nm ≠ [] →
       resolveItem st.symMap nm = some iid →
       stationRows st'.db sid =
         [{ station_id := sid, item_id := iid, modified := t, from_live := 1,
            demand_price := intOr0 c.sellPrice, demand_units := intOr0 c.demand,
            demand_level := bracketVal c.demandBracket,
            supply_price := intOr0 c.buyPrice, supply_units := intOr0 c.stock,
            supply_level := bracketVal c.stockBracket }]) := by
  constructor
  · intro b
    cases b with
    | none => simp [bracketVal]
    | some k =>
      rw [bracketVal]
      by_cases hk : k = 0
      · simp [hk]
      · simp only [Option.some.injEq, reduceCtorEq, false_or]
        rw [if_neg (by simpa using hk)]
        constructor
        · intro h; exact Or.inr h
        · intro h
          rcases h with h | h
          · exact absurd h hk
          · exact h
  · intro cfg st msg fault st' sid w sk t c nm iid h ht hcs hnm hne hres
    have hne' : (nm == []) = false := by simpa using hne
    rw [handle_committed_rows h ht, hcs]
    rw [snapRows, snapAux, hnm]
    simp [hne', hres, insertReplace, snapAux, mkRow]

/-- Witness for C6 (amended): the fixture message with one "Gold"
observation (bracket values 0) stores exactly the mapped row. -/
theorem c6_field_mapping_amended_witness :
    stationRows ((handleCommodity cfgW st0 (mkMsgW 100 none [cGold0]) none).1).db 10 =
      [{ station_id := 10, item_id := 5, modified := 100, from_live := 1,
         demand_price := intOr0 cGold0.sellPrice, demand_units := intOr0 cGold0.demand,
         demand_level := bracketVal cGold0.demandBracket,
         supply_price := intOr0 cGold0.buyPrice, supply_units := intOr0 cGold0.stock,
         supply_level := bracketVal cGold0.stockBracket }] :=
  c6_field_mapping_amended.2 cfgW st0 (mkMsgW 100 none [cGold0]) none
    ((handleCommodity cfgW st0 (mkMsgW 100 none [cGold0]) none).1) 10 1 0 100 cGold0
    (pystr "Gold") 5 (by decide) rfl rfl rfl (by decide) (by decide)

/-- C8: the filter checks run in order — (1) `carrier_only` with a
non-fleet-carrier station type rejects and bumps only
`carriers_filtered`, whatever the rest of the message holds; (2)
otherwise `public_only` with a truthy docking value differing
case-insensitively from "all" rejects the same way; (3) otherwise an
empty/missing system name, station name, timestamp or commodity list
rejects silently with the state untouched.  In every rejected case the
returned state shows no catalog access: the database field, the dedupe
clock and all other counters are exactly the input ones, so in
particular `stations_matched` is never incremented. -/
theorem c8_filter_order :
    (∀ (cfg : EddnConfig) (st : PState) (msg : Msg) (fault : Option Nat),
      filteredCarrier cfg msg = true →
      handleCommodity cfg st msg fault =
        ({ st with stats :=
            { st.stats with carriers_filtered := st.stats.carriers_filtered + 1 } },
          .carrierFiltered)) ∧
    (∀ (cfg : EddnConfig) (st : PState) (msg : Msg) (fault : Option Nat),
      filteredCarrier cfg msg = false → filteredPublic cfg msg = true →
      handleCommodity cfg st msg fault =
        ({ st with stats :=
            { st.stats with carriers_filtered := st.stats.carriers_filtered + 1 } },
          .carrierFiltered)) ∧
    (∀ (cfg : EddnConfig) (st : PState) (msg : Msg) (fault : Option Nat),
      filteredCarrier cfg msg = false → filteredPublic cfg msg = false →
      incompleteMsg msg = true →
      handleCommodity cfg st msg fault = (st, .incomplete)) := by
  refine ⟨?_, ?_, ?_⟩
  · intro cfg st msg fault h1
    simp only [handleCommodity]
    rw [if_pos h1]
  · intro cfg st msg fault h1 h2
    simp only [handleCommodity]
    rw [if_neg (by simp [h1]), if_pos h2]
  · intro cfg st msg fault h1 h2 h3
    simp only [handleCommodity]
    rw [if_neg (by simp [h1]), if_neg (by simp [h2]), if_pos h3]

/-- Witness for C8: one concrete message per filter arm. -/
theorem c8_filter_order_witness :
    handleCommodity cfgCa st0 (mkMsgW 100 none [cGold1]) none =
      ({ st0 with stats :=
          { st0.stats with carriers_filtered := st0.stats.carriers_filtered + 1 } },
        .carrierFiltered) ∧
    handleCommodity cfgPub st0 (mkMsgW 100 (some (pystr "Friends")) [cGold1]) none =
      ({ st0 with stats :=
          { st0.stats with carriers_filtered := st0.stats.carriers_filtered + 1 } },
        .carrierFiltered) ∧
    handleCommodity cfgW st0 (mkMsgW 100 none []) none = (st0, .incomplete) :=
  ⟨c8_filter_order.1 cfgCa st0 (mkMsgW 100 none [cGold1]) none (by decide),
    c8_filter_order.2.1 cfgPub st0 (mkMsgW 100 (some (pystr "Friends")) [cGold1]) none
      (by decide) (by decide),
    c8_filter_order.2.2 cfgW st0 (mkMsgW 100 none []) none
      (by decide) (by decide) (by decide)⟩
